import Mathlib

/-!
Verification of the MCP firmware serial stack (`src/mcp/mcp.hpp` and the
`process_frame` implementation shipped with the sketches).

The embedding below translates the C++ code directly:

* machine bytes (`uint8_t`) are `Nat` values; every operation that in C
  truncates to eight bits carries an explicit `% 256`;
* the receive buffer `frame_buffer[0 .. frame_pos)` is a `List Nat`, so
  `frame_pos` is the list length and `frame_buffer[frame_pos++] = b` is an
  append guarded by the same `frame_pos < MAX_FRAME_SIZE` test as the code;
* `Serial.write` calls made by `send_slip_frame` are collected into the
  returned byte list, in write order (the single-character debug trace bytes
  written by `process_serial` are not frame data and are not modelled);
* the generated `MCPBindings::dispatch` is not part of the repository, so
  `process_frame` is parametrised by an abstract `dispatch` function that
  returns `some response` on success (exit code 0) and `none` on failure.
-/

namespace MCP

/-- SLIP frame marker (`#define SLIP_END 0xC0`). -/
def SLIP_END : Nat := 0xC0

/-- SLIP escape character (`#define SLIP_ESC 0xDB`). -/
def SLIP_ESC : Nat := 0xDB

/-- Escaped END (`#define SLIP_ESC_END 0xDC`). -/
def SLIP_ESC_END : Nat := 0xDC

/-- Escaped ESC (`#define SLIP_ESC_ESC 0xDD`). -/
def SLIP_ESC_ESC : Nat := 0xDD

/-- Clear sequence byte (`#define SLIP_CLEAR 0xDE`). -/
def SLIP_CLEAR : Nat := 0xDE

/-- Buffer capacity: `static const int MAX_FRAME_SIZE = 256`. -/
def MAX_FRAME_SIZE : Nat := 256

/-- The protocol state machine states (`enum MCPState`). -/
inductive MCPState where
  | MCP_IDLE
  | MCP_RECEIVING
  | MCP_ESCAPED
deriving DecidableEq, Repr

/-- One shift iteration of the inner loop of `MCPHandler::crc8`:
`if (crc & 0x80) crc = (crc << 1) ^ 0x07; else crc <<= 1;` where the
assignment back into the `uint8_t` variable truncates modulo 256. -/
def crc8Round (crc : Nat) : Nat :=
  if crc &&& 0x80 ≠ 0 then ((crc <<< 1) ^^^ 0x07) % 256
  else (crc <<< 1) % 256

/-- The inner `for (int j = 0; j < 8; j++)` loop of `MCPHandler::crc8`,
counted down from 8. -/
def crc8Inner : Nat → Nat → Nat
  | 0, crc => crc
  | j + 1, crc => crc8Inner j (crc8Round crc)

/-- One iteration of the outer loop of `MCPHandler::crc8`:
`crc ^= data[i];` (a `uint8_t` xor, hence `% 256`) followed by the eight
shift rounds. -/
def crc8Byte (crc b : Nat) : Nat := crc8Inner 8 ((crc ^^^ b) % 256)

/-- The function `MCPHandler::crc8(data, len)`: fold `crc8Byte` over the bytes starting
from `crc = 0x00`. -/
def crc8 (data : List Nat) : Nat := data.foldl crc8Byte 0x00

/-- Modelled from the spec: one `repeat 8 times` iteration of the reference
pseudocode in spec section 6 — `crc = (crc << 1) ^ 0x07 if (crc & 0x80)
else (crc << 1); crc &= 0xFF`. -/
def refCrcRound (crc : Nat) : Nat :=
  (if crc &&& 0x80 ≠ 0 then (crc <<< 1) ^^^ 0x07 else crc <<< 1) &&& 0xFF

/-- Modelled from the spec: the `repeat 8 times` loop of the reference
pseudocode. -/
def refCrcRepeat : Nat → Nat → Nat
  | 0, crc => crc
  | n + 1, crc => refCrcRepeat n (refCrcRound crc)

/-- Modelled from the spec: the whole reference pseudocode of spec section 6,
`crc = 0x00; for b in bytes: crc ^= b; repeat 8 times: ...; return crc`. -/
def crc8Reference (bytes : List Nat) : Nat :=
  bytes.foldl (fun crc b => refCrcRepeat 8 (crc ^^^ b)) 0x00

/-! ### CRC-8 lemmas -/

lemma crc8Round_lt (crc : Nat) : crc8Round crc < 256 := by
  unfold crc8Round
  split <;> exact Nat.mod_lt _ (by decide)

set_option maxRecDepth 4096 in
lemma crc8Round_eq_ref : ∀ crc < 256, crc8Round crc = refCrcRound crc := by
  decide

lemma crc8Inner_lt (n : Nat) : ∀ crc, crc < 256 → crc8Inner n crc < 256 := by
  induction n with
  | zero => intro crc h; exact h
  | succ n ih => intro crc h; exact ih _ (crc8Round_lt crc)

lemma crc8Inner_eq_ref (n : Nat) :
    ∀ crc, crc < 256 → crc8Inner n crc = refCrcRepeat n crc := by
  induction n with
  | zero => intro crc _; rfl
  | succ n ih =>
    intro crc h
    show crc8Inner n (crc8Round crc) = refCrcRepeat n (refCrcRound crc)
    rw [← crc8Round_eq_ref crc h]
    exact ih _ (crc8Round_lt crc)

lemma crc8Byte_lt (crc b : Nat) : crc8Byte crc b < 256 :=
  crc8Inner_lt 8 _ (Nat.mod_lt _ (by decide))

lemma crc8Byte_eq_ref (crc b : Nat) (hc : crc < 256) (hb : b < 256) :
    crc8Byte crc b = refCrcRepeat 8 (crc ^^^ b) := by
  have hx : crc ^^^ b < 256 := Nat.xor_lt_two_pow (n := 8) hc hb
  unfold crc8Byte
  rw [Nat.mod_eq_of_lt hx]
  exact crc8Inner_eq_ref 8 _ hx

lemma crc8_foldl_lt (l : List Nat) : ∀ crc, crc < 256 →
    l.foldl crc8Byte crc < 256 := by
  induction l with
  | nil => intro crc h; exact h
  | cons b rest ih => intro crc _; exact ih _ (crc8Byte_lt crc b)

lemma crc8_lt (data : List Nat) : crc8 data < 256 :=
  crc8_foldl_lt data 0 (by decide)

/-! ### Claim C5 -/

lemma crc8_eq_ref_foldl (l : List Nat) : ∀ crc, crc < 256 →
    (∀ b ∈ l, b < 256) →
    l.foldl crc8Byte crc = l.foldl (fun c b => refCrcRepeat 8 (c ^^^ b)) crc := by
  induction l with
  | nil => intro crc _ _; rfl
  | cons b rest ih =>
    intro crc hc hl
    have hb : b < 256 := hl b (List.mem_cons_self b rest)
    show rest.foldl crc8Byte (crc8Byte crc b) =
      rest.foldl (fun c b => refCrcRepeat 8 (c ^^^ b)) (refCrcRepeat 8 (crc ^^^ b))
    rw [← crc8Byte_eq_ref crc b hc hb]
    exact ih _ (crc8Byte_lt crc b) (fun x hx => hl x (List.mem_cons_of_mem b hx))

/-- C5: for every span of bytes (each value below 256), the firmware
function `crc8` computes exactly the CRC-8 described by the reference
pseudocode of the spec: polynomial 0x07, initial value 0x00, no final
xor, MSB-first bit processing. -/
theorem crc8_matches_reference (data : List Nat) (h : ∀ b ∈ data, b < 256) :
    crc8 data = crc8Reference data :=
  crc8_eq_ref_foldl data 0 (by decide) h

/-- Witness for C5 at the concrete span `[0x31, 0x32]`. -/
theorem crc8_matches_reference_witness :
    (∀ b ∈ [0x31, 0x32], b < 256) ∧ crc8 [0x31, 0x32] = crc8Reference [0x31, 0x32] :=
  ⟨by decide, crc8_matches_reference [0x31, 0x32] (by decide)⟩

/-! ### Claim C6 -/

/-- C6: `crc8` of the empty span is `0x00`, and appending the CRC of a span
to that span yields a span whose CRC is `0x00` (the self-checking
property). -/
theorem crc8_self_checking :
    crc8 [] = 0x00 ∧ ∀ a : List Nat, crc8 (a ++ [crc8 a]) = 0x00 := by
  refine ⟨rfl, fun a => ?_⟩
  unfold crc8
  rw [List.foldl_append]
  show crc8Byte (crc8 a) (crc8 a) = 0
  unfold crc8Byte
  rw [Nat.xor_self]
  rfl

/-! ### SLIP encoder (`MCPHandler::send_slip_frame`) -/

/-- The body of the escaping loop of `send_slip_frame` for one byte:
`if (data[i] == SLIP_END) { write(SLIP_ESC); write(SLIP_ESC_END); }
else if (data[i] == SLIP_ESC) { write(SLIP_ESC); write(SLIP_ESC_ESC); }
else write(data[i]);`. -/
def escByte (b : Nat) : List Nat :=
  if b = SLIP_END then [SLIP_ESC, SLIP_ESC_END]
  else if b = SLIP_ESC then [SLIP_ESC, SLIP_ESC_ESC]
  else [b]

/-- The whole escaping loop of `send_slip_frame`, over the payload bytes in
order. -/
def slipBody : List Nat → List Nat
  | [] => []
  | b :: rest => escByte b ++ slipBody rest

/-- The function `MCPHandler::send_slip_frame(data, len)`: the exact sequence of bytes
written to the serial sink — the `ESC CLEAR` reset prefix, the opening
`END`, the escaped payload, and the closing `END`. -/
def send_slip_frame (data : List Nat) : List Nat :=
  [SLIP_ESC, SLIP_CLEAR] ++ [SLIP_END] ++ slipBody data ++ [SLIP_END]

/-! ### SLIP decoder (`MCPHandler::process_serial`) -/

/-- The receiver state of `MCPHandler`: the `state` member together with
`frame_buffer[0 .. frame_pos)` as a list (so `frame_pos = buf.length`). -/
structure DecoderState where
  state : MCPState
  buf : List Nat
deriving DecidableEq, Repr

/-- The state set up by the `MCPHandler()` constructor:
`frame_pos(0), state(MCP_IDLE)`. -/
def initState : DecoderState := ⟨MCPState.MCP_IDLE, []⟩

/-- One iteration of the `while (Serial.available() > 0)` loop of
`MCPHandler::process_serial` on one input byte: the next receiver state,
together with `some frame` when the iteration hands `frame` to
`process_frame` (which happens only on `SLIP_END` with `frame_pos > 1`).

Note the `MCP_ESCAPED` case: all three branches fall through to the
trailing `state = MCP_RECEIVING;` statement of the C++ `case` block, so
even the invalid-escape branch, whose `reset_frame()` sets `MCP_IDLE`,
ends with `state == MCP_RECEIVING`. -/
def step (s : DecoderState) (byte : Nat) : DecoderState × Option (List Nat) :=
  match s.state with
  | MCPState.MCP_IDLE =>
    if byte = SLIP_END then (⟨MCPState.MCP_RECEIVING, []⟩, none)
    else (s, none)
  | MCPState.MCP_RECEIVING =>
    if byte = SLIP_END then
      -- process_frame when frame_pos > 1, then reset_frame()
      (⟨MCPState.MCP_IDLE, []⟩, if s.buf.length > 1 then some s.buf else none)
    else if byte = SLIP_ESC then
      (⟨MCPState.MCP_ESCAPED, s.buf⟩, none)
    else
      if s.buf.length < MAX_FRAME_SIZE then
        (⟨MCPState.MCP_RECEIVING, s.buf ++ [byte]⟩, none)
      else
        -- frame too large: reset_frame()
        (⟨MCPState.MCP_IDLE, []⟩, none)
  | MCPState.MCP_ESCAPED =>
    if byte = SLIP_ESC_END then
      if s.buf.length < MAX_FRAME_SIZE then
        (⟨MCPState.MCP_RECEIVING, s.buf ++ [SLIP_END]⟩, none)
      else
        (⟨MCPState.MCP_RECEIVING, []⟩, none)
    else if byte = SLIP_ESC_ESC then
      if s.buf.length < MAX_FRAME_SIZE then
        (⟨MCPState.MCP_RECEIVING, s.buf ++ [SLIP_ESC]⟩, none)
      else
        (⟨MCPState.MCP_RECEIVING, []⟩, none)
    else
      -- invalid escape: reset_frame(), then the trailing assignment
      -- leaves state == MCP_RECEIVING with an empty buffer
      (⟨MCPState.MCP_RECEIVING, []⟩, none)

/-- Feed a byte sequence through `step`, collecting every frame handed to
`process_frame`, in order. -/
def run : DecoderState → List Nat → DecoderState × List (List Nat)
  | s, [] => (s, [])
  | s, b :: rest =>
    ((run (step s b).1 rest).1, (step s b).2.toList ++ (run (step s b).1 rest).2)

/-! ### Frame processing (`MCPHandler::process_frame`) -/

/-- The function `MCPHandler::process_frame()`, parametrised by the generated
`MCPBindings::dispatch` (abstracted as a function from the command bytes to
`some response` on success and `none` on a dispatch error). The result is
the frame passed to `send_slip_frame`, or `none` when nothing is sent.

In both error branches the C++ code declares
`uint8_t error_response[2] = {0xFF, code};`, computes
`error_crc = crc8(error_response, 1)` — the CRC of the single byte `0xFF` —
and then stores it with `error_response[1] = error_crc`, overwriting the
error code, before sending the two bytes. The frame sent is therefore
`[0xFF, crc8 [0xFF]]` for either error. -/
def processFrame (dispatch : List Nat → Option (List Nat))
    (frame : List Nat) : Option (List Nat) :=
  if frame.length < 2 then none
  else
    let data := frame.dropLast
    let received_crc := frame.getLastD 0
    let calculated_crc := crc8 data
    if received_crc ≠ calculated_crc then
      some [0xFF, crc8 [0xFF]]
    else
      match dispatch data with
      | some response => some (response ++ [crc8 response])
      | none => some [0xFF, crc8 [0xFF]]

/-! ### Evaluation lemmas for `step` and `run` -/

lemma run_nil (s : DecoderState) : run s [] = (s, []) := rfl

lemma run_cons (s : DecoderState) (b : Nat) (rest : List Nat) :
    run s (b :: rest) =
      ((run (step s b).1 rest).1, (step s b).2.toList ++ (run (step s b).1 rest).2) := rfl

lemma run_append (xs ys : List Nat) : ∀ s : DecoderState,
    run s (xs ++ ys) =
      ((run (run s xs).1 ys).1, (run s xs).2 ++ (run (run s xs).1 ys).2) := by
  induction xs with
  | nil => intro s; simp [run_nil]
  | cons b rest ih =>
    intro s
    simp [run_cons, ih, List.append_assoc]

lemma step_idle_end (buf : List Nat) :
    step ⟨MCPState.MCP_IDLE, buf⟩ SLIP_END = (⟨MCPState.MCP_RECEIVING, []⟩, none) := by
  unfold step
  rw [if_pos rfl]

lemma step_idle_other (buf : List Nat) (b : Nat) (hb : b ≠ SLIP_END) :
    step ⟨MCPState.MCP_IDLE, buf⟩ b = (⟨MCPState.MCP_IDLE, buf⟩, none) := by
  unfold step
  rw [if_neg hb]

lemma step_receiving_end (buf : List Nat) :
    step ⟨MCPState.MCP_RECEIVING, buf⟩ SLIP_END =
      (⟨MCPState.MCP_IDLE, []⟩, if buf.length > 1 then some buf else none) := by
  unfold step
  rw [if_pos rfl]
  rfl

lemma step_receiving_esc (buf : List Nat) :
    step ⟨MCPState.MCP_RECEIVING, buf⟩ SLIP_ESC = (⟨MCPState.MCP_ESCAPED, buf⟩, none) := by
  simp only [step, if_true]
  rw [if_neg (by decide : ¬ SLIP_ESC = SLIP_END)]

lemma step_receiving_data (buf : List Nat) (b : Nat)
    (hb1 : b ≠ SLIP_END) (hb2 : b ≠ SLIP_ESC) (hlen : buf.length < MAX_FRAME_SIZE) :
    step ⟨MCPState.MCP_RECEIVING, buf⟩ b =
      (⟨MCPState.MCP_RECEIVING, buf ++ [b]⟩, none) := by
  simp only [step]
  rw [if_neg hb1, if_neg hb2, if_pos hlen]

lemma step_escaped_escend (buf : List Nat) (hlen : buf.length < MAX_FRAME_SIZE) :
    step ⟨MCPState.MCP_ESCAPED, buf⟩ SLIP_ESC_END =
      (⟨MCPState.MCP_RECEIVING, buf ++ [SLIP_END]⟩, none) := by
  simp only [step, if_true]
  rw [if_pos hlen]

lemma step_escaped_escesc (buf : List Nat) (hlen : buf.length < MAX_FRAME_SIZE) :
    step ⟨MCPState.MCP_ESCAPED, buf⟩ SLIP_ESC_ESC =
      (⟨MCPState.MCP_RECEIVING, buf ++ [SLIP_ESC]⟩, none) := by
  simp only [step, if_true]
  rw [if_neg (by decide : ¬ SLIP_ESC_ESC = SLIP_ESC_END), if_pos hlen]

lemma step_escaped_other (buf : List Nat) (b : Nat)
    (hb1 : b ≠ SLIP_ESC_END) (hb2 : b ≠ SLIP_ESC_ESC) :
    step ⟨MCPState.MCP_ESCAPED, buf⟩ b = (⟨MCPState.MCP_RECEIVING, []⟩, none) := by
  simp only [step]
  rw [if_neg hb1, if_neg hb2]

lemma step_receiving_overflow (buf : List Nat) (b : Nat)
    (hb1 : b ≠ SLIP_END) (hb2 : b ≠ SLIP_ESC) (hlen : ¬ buf.length < MAX_FRAME_SIZE) :
    step ⟨MCPState.MCP_RECEIVING, buf⟩ b = (⟨MCPState.MCP_IDLE, []⟩, none) := by
  simp only [step]
  rw [if_neg hb1, if_neg hb2, if_neg hlen]

lemma step_escaped_escend_overflow (buf : List Nat)
    (hlen : ¬ buf.length < MAX_FRAME_SIZE) :
    step ⟨MCPState.MCP_ESCAPED, buf⟩ SLIP_ESC_END =
      (⟨MCPState.MCP_RECEIVING, []⟩, none) := by
  simp only [step, if_true]
  rw [if_neg hlen]

lemma step_escaped_escesc_overflow (buf : List Nat)
    (hlen : ¬ buf.length < MAX_FRAME_SIZE) :
    step ⟨MCPState.MCP_ESCAPED, buf⟩ SLIP_ESC_ESC =
      (⟨MCPState.MCP_RECEIVING, []⟩, none) := by
  simp only [step, if_true]
  rw [if_neg (by decide : ¬ SLIP_ESC_ESC = SLIP_ESC_END), if_neg hlen]

/-- When a step emits no frame, running the rest of the input from the next
state gives the whole result. -/
lemma run_cons_silent (s s1 : DecoderState) (b : Nat) (rest : List Nat)
    (hstep : step s b = (s1, none)) :
    run s (b :: rest) = run s1 rest := by
  rw [run_cons, hstep]
  simp

/-! ### Claim C7 -/

lemma slipBody_eq_flatMap (data : List Nat) : slipBody data = data.flatMap escByte := by
  induction data with
  | nil => rfl
  | cons b rest ih =>
    show escByte b ++ slipBody rest = (b :: rest).flatMap escByte
    rw [List.flatMap_cons, ih]

lemma slipBody_no_end (data : List Nat) : ∀ x ∈ slipBody data, x ≠ SLIP_END := by
  induction data with
  | nil => intro x hx; cases hx
  | cons b rest ih =>
    intro x hx
    rcases List.mem_append.1 hx with h1 | h2
    · unfold escByte at h1
      by_cases hb : b = SLIP_END
      · rw [if_pos hb] at h1
        simp only [List.mem_cons, List.not_mem_nil, or_false] at h1
        rcases h1 with h | h <;> (subst h; decide)
      · rw [if_neg hb] at h1
        by_cases hb2 : b = SLIP_ESC
        · rw [if_pos hb2] at h1
          simp only [List.mem_cons, List.not_mem_nil, or_false] at h1
          rcases h1 with h | h <;> (subst h; decide)
        · rw [if_neg hb2] at h1
          simp only [List.mem_cons, List.not_mem_nil, or_false] at h1
          subst h1
          exact hb
    · exact ih x h2

/-- C7: `send_slip_frame` emits exactly, in order, the `ESC CLEAR` reset
prefix, a frame-start `END`, the per-byte escaping of the payload
(`ESC ESC_END` for `0xC0`, `ESC ESC_ESC` for `0xDB`, the byte verbatim
otherwise), and a final `END`; and no byte emitted between the frame-start
`END` and the frame-end `END` equals `0xC0`. -/
theorem send_slip_frame_structure (data : List Nat) :
    send_slip_frame data =
      [SLIP_ESC, SLIP_CLEAR, SLIP_END] ++ data.flatMap escByte ++ [SLIP_END] ∧
    ∀ x ∈ data.flatMap escByte, x ≠ SLIP_END := by
  rw [← slipBody_eq_flatMap]
  exact ⟨by simp [send_slip_frame], slipBody_no_end data⟩

/-! ### Claim C1 (code bug) -/

/-- C1 fails on the code: in both error branches of `process_frame` the
statement `error_response[1] = error_crc` overwrites the error code with
`crc8` of the single byte `0xFF` (which is `0xF3`), and only two bytes are
sent. The response frame to a CRC-mismatch command `[0x00, 0x01]` and to a
dispatch failure on the valid command `[0x00, 0x00]` is in both cases
`[0xFF, 0xF3]`, not the three-byte frames `[0xFF, 0x01, crc8 [0xFF, 0x01]]`
or `[0xFF, 0x02, crc8 [0xFF, 0x02]]` the claim describes. -/
theorem error_response_code_overwritten :
    processFrame (fun _ => none) [0x00, 0x01] = some [0xFF, 0xF3] ∧
    processFrame (fun _ => none) [0x00, 0x00] = some [0xFF, 0xF3] ∧
    crc8 [0xFF] = 0xF3 ∧
    ([0xFF, 0xF3] : List Nat) ≠ [0xFF, 0x01, crc8 [0xFF, 0x01]] ∧
    ([0xFF, 0xF3] : List Nat) ≠ [0xFF, 0x02, crc8 [0xFF, 0x02]] := by
  decide

/-! ### Claim C2 (code bug) -/

/-- C2 fails on the code: after a frame start and one data byte the decoder
is in `MCP_RECEIVING` with buffer `[0x05]`; consuming `ESC` then `CLEAR`
drops the buffer as the claim says, but the trailing
`state = MCP_RECEIVING;` of the `MCP_ESCAPED` case overrides the
`reset_frame()` of the invalid-escape branch, so the decoder ends in
`MCP_RECEIVING`, not `MCP_IDLE`. -/
theorem invalid_escape_ends_receiving :
    run initState [0xC0, 0x05, 0xDB, 0xDE] = (⟨MCPState.MCP_RECEIVING, []⟩, []) ∧
    step ⟨MCPState.MCP_ESCAPED, [0x05]⟩ SLIP_CLEAR =
      (⟨MCPState.MCP_RECEIVING, []⟩, none) ∧
    MCPState.MCP_RECEIVING ≠ MCPState.MCP_IDLE := by
  decide

/-! ### Claim C10 -/

/-- C10: a decoded frame shorter than two bytes produces no response at all
(`process_frame` returns before the CRC check, dispatch, or any serial
write), and on the closing `END` the decoder resets to the initial state
(`MCP_IDLE`, empty buffer) without handing the frame to `process_frame`. -/
theorem short_frame_no_response (dispatch : List Nat → Option (List Nat))
    (frame : List Nat) (h : frame.length < 2) :
    processFrame dispatch frame = none ∧
    step ⟨MCPState.MCP_RECEIVING, frame⟩ SLIP_END = (initState, none) := by
  constructor
  · unfold processFrame
    rw [if_pos h]
  · rw [step_receiving_end]
    rw [if_neg (by omega : ¬ frame.length > 1)]
    rfl

/-- Witness for C10 at the one-byte frame `[0x07]`. -/
theorem short_frame_no_response_witness :
    ([0x07] : List Nat).length < 2 ∧
    (processFrame (fun _ => some []) [0x07] = none ∧
     step ⟨MCPState.MCP_RECEIVING, [0x07]⟩ SLIP_END = (initState, none)) :=
  ⟨by decide, short_frame_no_response (fun _ => some []) [0x07] (by decide)⟩

/-! ### Claim C3 -/

/-- Feeding the escaped payload of `v` to a receiver in `MCP_RECEIVING`
appends exactly `v` to its buffer, emitting nothing, as long as the buffer
never fills up. -/
lemma run_slipBody (v : List Nat) : ∀ buf : List Nat,
    buf.length + v.length ≤ 256 →
    run ⟨MCPState.MCP_RECEIVING, buf⟩ (slipBody v) =
      (⟨MCPState.MCP_RECEIVING, buf ++ v⟩, []) := by
  induction v with
  | nil => intro buf h; rw [slipBody, run_nil, List.append_nil]
  | cons b rest ih =>
    intro buf h
    rw [List.length_cons] at h
    have hlen : buf.length < MAX_FRAME_SIZE := by
      unfold MAX_FRAME_SIZE; omega
    have hrest : ∀ x : Nat, (buf ++ [x]).length + rest.length ≤ 256 := by
      intro x; rw [List.length_append, List.length_singleton]; omega
    by_cases hb : b = SLIP_END
    · subst hb
      show run ⟨MCPState.MCP_RECEIVING, buf⟩
        (SLIP_ESC :: SLIP_ESC_END :: slipBody rest) = _
      rw [run_cons_silent _ _ _ _ (step_receiving_esc buf),
          run_cons_silent _ _ _ _ (step_escaped_escend buf hlen),
          ih (buf ++ [SLIP_END]) (hrest SLIP_END)]
      simp
    · by_cases hb2 : b = SLIP_ESC
      · subst hb2
        show run ⟨MCPState.MCP_RECEIVING, buf⟩
          (SLIP_ESC :: SLIP_ESC_ESC :: slipBody rest) = _
        rw [run_cons_silent _ _ _ _ (step_receiving_esc buf),
            run_cons_silent _ _ _ _ (step_escaped_escesc buf hlen),
            ih (buf ++ [SLIP_ESC]) (hrest SLIP_ESC)]
        simp
      · show run ⟨MCPState.MCP_RECEIVING, buf⟩ (escByte b ++ slipBody rest) = _
        rw [show escByte b = [b] from by unfold escByte; rw [if_neg hb, if_neg hb2]]
        show run ⟨MCPState.MCP_RECEIVING, buf⟩ (b :: slipBody rest) = _
        rw [run_cons_silent _ _ _ _ (step_receiving_data buf b hb hb2 hlen),
            ih (buf ++ [b]) (hrest b)]
        simp

/-- C3 fails on the code for payloads shorter than two bytes: the decoder
only hands a finished frame to `process_frame` when `frame_pos > 1`, so the
encoding of the one-byte vector `[0x05]` is consumed without any frame
being emitted. -/
theorem slip_roundtrip_fails_short :
    ([0x05] : List Nat).length ≤ 254 ∧
    run initState (send_slip_frame [0x05]) = (⟨MCPState.MCP_IDLE, []⟩, []) ∧
    ([] : List (List Nat)) ≠ [[0x05]] := by
  decide

/-- C3 (amended): for every byte vector `v` with `2 ≤ length v ≤ 254`,
feeding the SLIP encoding of `v` byte-by-byte into a decoder in the initial
state emits exactly the frame `v` and nothing else (and returns the decoder
to the initial state). -/
theorem slip_roundtrip (v : List Nat) (h2 : 2 ≤ v.length) (h254 : v.length ≤ 254) :
    run initState (send_slip_frame v) = (initState, [v]) := by
  have hbody : run ⟨MCPState.MCP_RECEIVING, []⟩ (slipBody v) =
      (⟨MCPState.MCP_RECEIVING, v⟩, []) := by
    have := run_slipBody v [] (by simpa using le_trans h254 (by norm_num))
    simpa using this
  show run ⟨MCPState.MCP_IDLE, []⟩
    (SLIP_ESC :: SLIP_CLEAR :: SLIP_END :: (slipBody v ++ [SLIP_END])) = _
  rw [run_cons_silent _ _ _ _ (step_idle_other [] SLIP_ESC (by decide)),
      run_cons_silent _ _ _ _ (step_idle_other [] SLIP_CLEAR (by decide)),
      run_cons_silent _ _ _ _ (step_idle_end []),
      run_append, hbody]
  rw [run_cons, step_receiving_end]
  rw [if_pos (by omega : v.length > 1)]
  rw [run_nil]
  rfl

/-- Witness for C3 (amended) at the two-byte vector `[0x01, 0xC0]`. -/
theorem slip_roundtrip_witness :
    (2 ≤ ([0x01, 0xC0] : List Nat).length ∧ ([0x01, 0xC0] : List Nat).length ≤ 254) ∧
    run initState (send_slip_frame [0x01, 0xC0]) = (initState, [[0x01, 0xC0]]) :=
  ⟨⟨by decide, by decide⟩, slip_roundtrip [0x01, 0xC0] (by decide) (by decide)⟩

/-! ### Claim C4 -/

/-- C4 fails on the code: from the reachable state `MCP_RECEIVING` with
buffer `[0x01, 0x02, 0x03]` (obtained by feeding `C0 01 02 03` from the
initial state), feeding `END END` emits the buffered frame on the first
`END` and leaves the decoder in `MCP_RECEIVING` (the second `END` starts a
new frame), not in `MCP_IDLE` with no emitted frame. -/
theorem end_end_counterexample :
    run initState [0xC0, 0x01, 0x02, 0x03] =
      (⟨MCPState.MCP_RECEIVING, [0x01, 0x02, 0x03]⟩, []) ∧
    run ⟨MCPState.MCP_RECEIVING, [0x01, 0x02, 0x03]⟩ [SLIP_END, SLIP_END] =
      (⟨MCPState.MCP_RECEIVING, []⟩, [[0x01, 0x02, 0x03]]) ∧
    MCPState.MCP_RECEIVING ≠ MCPState.MCP_IDLE ∧
    ([[0x01, 0x02, 0x03]] : List (List Nat)) ≠ [] := by
  decide

set_option linter.unusedVariables false in
/-- C4 (amended): from state `MCP_RECEIVING` with a non-empty buffer,
feeding `END END` leaves the decoder in `MCP_RECEIVING` with an empty
buffer; the first `END` emits the buffered frame exactly when it holds at
least two bytes, and the second `END` emits nothing. -/
theorem end_end_after_partial (buf : List Nat) (hne : buf ≠ []) :
    run ⟨MCPState.MCP_RECEIVING, buf⟩ [SLIP_END, SLIP_END] =
      (⟨MCPState.MCP_RECEIVING, []⟩, if buf.length > 1 then [buf] else []) := by
  rw [run_cons, step_receiving_end]
  rw [show run ⟨MCPState.MCP_IDLE, []⟩ [SLIP_END] =
    (⟨MCPState.MCP_RECEIVING, []⟩, []) from by decide]
  by_cases hb : buf.length > 1
  · rw [if_pos hb, if_pos hb]; rfl
  · rw [if_neg hb, if_neg hb]; rfl

/-- Witness for C4 (amended) at the one-byte buffer `[0x05]`. -/
theorem end_end_after_partial_witness :
    ([0x05] : List Nat) ≠ [] ∧
    run ⟨MCPState.MCP_RECEIVING, [0x05]⟩ [SLIP_END, SLIP_END] =
      (⟨MCPState.MCP_RECEIVING, []⟩,
        if ([0x05] : List Nat).length > 1 then [[0x05]] else []) :=
  ⟨by decide, end_end_after_partial [0x05] (by decide)⟩

/-! ### Claim C8 -/

/-- C8: when the received frame has length at least 2, its trailing CRC
byte checks out, and dispatch succeeds with a response payload `r` of at
most 255 bytes (the capacity `MAX_FRAME_SIZE - 1` the code hands to the
bindings), the firmware sends the frame `r ++ [crc8 r]`: its length is
`r.length + 1 ≤ 256`, its last byte is the CRC of all preceding bytes, and
the CRC itself is excluded from the bytes it covers. -/
theorem success_response_wellformed (dispatch : List Nat → Option (List Nat))
    (frame r : List Nat) (h2 : 2 ≤ frame.length)
    (hcrc : frame.getLastD 0 = crc8 frame.dropLast)
    (hd : dispatch frame.dropLast = some r) (hlen : r.length ≤ 255) :
    processFrame dispatch frame = some (r ++ [crc8 r]) ∧
    (r ++ [crc8 r]).length = r.length + 1 ∧
    (r ++ [crc8 r]).length ≤ 256 ∧
    (r ++ [crc8 r]).dropLast = r ∧
    (r ++ [crc8 r]).getLastD 0 = crc8 ((r ++ [crc8 r]).dropLast) := by
  refine ⟨?_, by simp, by simp; omega, by simp, by simp⟩
  unfold processFrame
  rw [if_neg (by omega)]
  simp only [hcrc, hd, ne_eq, not_true_eq_false, if_false]

/-- Witness for C8: command frame `[0x00, 0x00]` (valid CRC) with a
dispatch returning the payload `[0x2A]`. -/
theorem success_response_wellformed_witness :
    (2 ≤ ([0x00, 0x00] : List Nat).length ∧
     ([0x00, 0x00] : List Nat).getLastD 0 = crc8 ([0x00, 0x00] : List Nat).dropLast ∧
     (fun _ : List Nat => some [0x2A]) ([0x00, 0x00] : List Nat).dropLast = some [0x2A] ∧
     ([0x2A] : List Nat).length ≤ 255) ∧
    processFrame (fun _ => some [0x2A]) [0x00, 0x00] = some ([0x2A] ++ [crc8 [0x2A]]) :=
  ⟨⟨by decide, by decide, by decide, by decide⟩,
    (success_response_wellformed (fun _ => some [0x2A]) [0x00, 0x00] [0x2A]
      (by decide) (by decide) (by decide) (by decide)).1⟩

/-! ### Claim C9 -/

lemma step_inv (s : DecoderState) (b : Nat) (h : s.buf.length ≤ 256) :
    (step s b).1.buf.length ≤ 256 ∧
    ∀ f, (step s b).2 = some f → f.length ≤ 256 := by
  rcases s with ⟨st, buf⟩
  have hmax : MAX_FRAME_SIZE = 256 := rfl
  cases st
  case MCP_IDLE =>
    by_cases hb : b = SLIP_END
    · subst hb; rw [step_idle_end]
      exact ⟨by simp, fun f hf => by simp at hf⟩
    · rw [step_idle_other _ _ hb]
      exact ⟨h, fun f hf => by simp at hf⟩
  case MCP_RECEIVING =>
    by_cases hb : b = SLIP_END
    · subst hb; rw [step_receiving_end]
      refine ⟨by simp, fun f hf => ?_⟩
      by_cases h1 : buf.length > 1
      · rw [if_pos h1] at hf
        cases hf
        exact h
      · rw [if_neg h1] at hf; simp at hf
    · by_cases hb2 : b = SLIP_ESC
      · subst hb2; rw [step_receiving_esc]
        exact ⟨h, fun f hf => by simp at hf⟩
      · by_cases hl : buf.length < MAX_FRAME_SIZE
        · rw [step_receiving_data _ _ hb hb2 hl]
          rw [hmax] at hl
          exact ⟨by simp; omega, fun f hf => by simp at hf⟩
        · rw [step_receiving_overflow _ _ hb hb2 hl]
          exact ⟨by simp, fun f hf => by simp at hf⟩
  case MCP_ESCAPED =>
    by_cases hb : b = SLIP_ESC_END
    · subst hb
      by_cases hl : buf.length < MAX_FRAME_SIZE
      · rw [step_escaped_escend _ hl]
        rw [hmax] at hl
        exact ⟨by simp; omega, fun f hf => by simp at hf⟩
      · rw [step_escaped_escend_overflow _ hl]
        exact ⟨by simp, fun f hf => by simp at hf⟩
    · by_cases hb2 : b = SLIP_ESC_ESC
      · subst hb2
        by_cases hl : buf.length < MAX_FRAME_SIZE
        · rw [step_escaped_escesc _ hl]
          rw [hmax] at hl
          exact ⟨by simp; omega, fun f hf => by simp at hf⟩
        · rw [step_escaped_escesc_overflow _ hl]
          exact ⟨by simp, fun f hf => by simp at hf⟩
      · rw [step_escaped_other _ _ hb hb2]
        exact ⟨by simp, fun f hf => by simp at hf⟩

lemma run_inv (bytes : List Nat) : ∀ s : DecoderState, s.buf.length ≤ 256 →
    (run s bytes).1.buf.length ≤ 256 ∧
    ∀ f ∈ (run s bytes).2, f.length ≤ 256 := by
  induction bytes with
  | nil =>
    intro s h
    rw [run_nil]
    exact ⟨h, fun f hf => absurd hf (List.not_mem_nil f)⟩
  | cons b rest ih =>
    intro s h
    obtain ⟨h1, h2⟩ := step_inv s b h
    obtain ⟨h3, h4⟩ := ih (step s b).1 h1
    rw [run_cons]
    refine ⟨h3, fun f hf => ?_⟩
    rcases List.mem_append.1 hf with hf1 | hf2
    · cases ho : (step s b).2 with
      | none => rw [ho] at hf1; simp at hf1
      | some g =>
        rw [ho] at hf1
        simp at hf1
        subst hf1
        exact h2 _ ho
    · exact h4 f hf2

/-- C9: starting from the initial decoder state, after any sequence of
input bytes the buffer (`frame_pos`) never exceeds `MAX_FRAME_SIZE` — so
every buffer write, which the code only performs when
`frame_pos < MAX_FRAME_SIZE`, lands at an index strictly below 256 — and
every frame handed to `process_frame` has length at most
`MAX_FRAME_SIZE`. -/
theorem decoder_buffer_bounded (bytes : List Nat) :
    (run initState bytes).1.buf.length ≤ MAX_FRAME_SIZE ∧
    ∀ f ∈ (run initState bytes).2, f.length ≤ MAX_FRAME_SIZE :=
  run_inv bytes initState (by decide)

end MCP
